import Mathlib

/-!
Verification of the JSON-ization code generator of aas-core-codegen
(`csharp/jsonization/_generate.py` and `golang/common.py`).

The generator emits C-sharp source text.  The behavioural claims are about
the code that the fixed templates in `_generate.py` produce, so we embed the
runtime semantics of the emitted parsers and serializers, following the
templates line by line: the class parser (`_generate_from_method_for_class`
together with `_generate_deserialize_constructor_argument`), the interface
dispatch parser (`_generate_from_method_for_interface`), the primitive
parsers (`_generate_deserialize_impl`), the property transformer
(`_generate_transform_property`, `_generate_transform_for_class`) and the
integer serialization helper (`_generate_transformer`).  Generator-level
claims (error collection, the result-xor-error convention) are embedded as
functions mirroring the generation pass itself.  The Go string helpers are
embedded directly.
-/

set_option autoImplicit false

/-- JSON primitive payloads held by a `System.Text.Json.Nodes.JsonValue`
node.  The generated parsers probe such a node with `TryGetValue` for a
concrete primitive type, which succeeds only when the stored payload has
that runtime kind. -/
inductive JsonVal : Type
  | jstr (s : String)
  | jint (n : Int)
  | jbool (b : Bool)
deriving DecidableEq

/-- JSON nodes as in `System.Text.Json.Nodes`: a value, an object or an
array.  A JSON `null` is represented in that library by a null node
reference, so object entries and array items carry `Option JsonNode`, with
`none` standing for `null`. -/
inductive JsonNode : Type
  | value (v : JsonVal)
  | obj (fields : List (String × Option JsonNode))
  | arr (items : List (Option JsonNode))

/-- Runtime type name of a node, standing for the C-sharp `GetType()` call
interpolated into several generated error messages. -/
def JsonNode.getTypeName : JsonNode → String
  | .value _ => "System.Text.Json.Nodes.JsonValue"
  | .obj _ => "System.Text.Json.Nodes.JsonObject"
  | .arr _ => "System.Text.Json.Nodes.JsonArray"

/-- Rendering of a primitive value, standing for the `ToJsonString()` and
string-interpolation renderings used inside generated error messages. -/
def JsonVal.toJsonString : JsonVal → String
  | .jstr s => "\"" ++ s ++ "\""
  | .jint n => toString n
  | .jbool b => if b then "true" else "false"

/-- Result of the C-sharp `TryGetValue<string>` probe on a `JsonValue`:
only a stored string payload converts. -/
def JsonVal.asString : JsonVal → Option String
  | .jstr s => some s
  | _ => none

/-- Indexer `obj[key]` of a `JsonObject`: the first entry with the given
key, flattened so that an absent key and a key explicitly mapped to JSON
`null` both yield `none`, exactly as the C-sharp indexer returns a null
node reference in both cases. -/
def lookupField (fields : List (String × Option JsonNode)) (key : String) :
    Option JsonNode :=
  match fields with
  | [] => none
  | (k, v) :: rest => if k = key then v else lookupField rest key

/-- Modelled from the spec: path segments of the `Reporting` error-path
model (spec section 4.2); the `Reporting` module generated by
aas-core-codegen is not among the given sources.  A segment is either a
field-name segment or a list-index segment. -/
inductive Segment : Type
  | name (ident : String)
  | idx (index : Nat)
deriving DecidableEq

/-- Modelled from the spec: the `Reporting.Error` value (spec section 4.2)
-- a terminal cause string plus the ordered segment list; the `Reporting`
module generated by aas-core-codegen is not among the given sources. -/
structure Err : Type where
  cause : String
  path : List Segment
deriving DecidableEq

/-- Modelled from the spec: `PrependSegment` with a name segment inserts
the segment at the front of the path (spec section 4.2). -/
def Err.prependName (e : Err) (n : String) : Err :=
  ⟨e.cause, .name n :: e.path⟩

/-- Modelled from the spec: `PrependSegment` with an index segment inserts
the segment at the front of the path (spec section 4.2). -/
def Err.prependIdx (e : Err) (i : Nat) : Err :=
  ⟨e.cause, .idx i :: e.path⟩

/-- Universal domain for parsed primitive slot values, so that arguments of
different primitive types can share one class-parser embedding. -/
inductive PVal : Type
  | b (x : Bool)
  | i (x : Int)
  | s (x : String)
deriving DecidableEq

/-- Semantics of the generated `DeserializeImplementation.BoolFrom`
template: require a `JsonValue` holding a boolean. -/
def boolFrom : JsonNode → Except Err Bool
  | .value v =>
    match v with
    | .jbool b => .ok b
    | other =>
      .error ⟨"Expected a boolean, but the conversion failed from " ++
        other.toJsonString, []⟩
  | other =>
    .error ⟨"Expected a JsonValue, but got " ++ other.getTypeName, []⟩

/-- Semantics of the generated `DeserializeImplementation.LongFrom`
template: require a `JsonValue` holding an integer representable as a
64-bit long. -/
def longFrom : JsonNode → Except Err Int
  | .value v =>
    match v with
    | .jint n =>
      if -(2 ^ 63) ≤ n ∧ n < 2 ^ 63 then .ok n
      else
        .error ⟨"Expected a 64-bit long integer, but the conversion failed from " ++
          JsonVal.toJsonString (.jint n), []⟩
    | other =>
      .error ⟨"Expected a 64-bit long integer, but the conversion failed from " ++
        other.toJsonString, []⟩
  | other =>
    .error ⟨"Expected a JsonValue, but got " ++ other.getTypeName, []⟩

/-- Semantics of the generated `DeserializeImplementation.StringFrom`
template: require a `JsonValue` holding a string. -/
def stringFrom : JsonNode → Except Err String
  | .value v =>
    match v with
    | .jstr s => .ok s
    | other =>
      .error ⟨"Expected a string, but the conversion failed from " ++
        other.toJsonString, []⟩
  | other =>
    .error ⟨"Expected a JsonValue, but got " ++ other.getTypeName, []⟩

/-- The boolean parser lifted into the universal slot-value domain. -/
def boolFromP (node : JsonNode) : Except Err PVal :=
  (boolFrom node).map .b

/-- The long parser lifted into the universal slot-value domain. -/
def longFromP (node : JsonNode) : Except Err PVal :=
  (longFrom node).map .i

/-- The string parser lifted into the universal slot-value domain. -/
def stringFromP (node : JsonNode) : Except Err PVal :=
  (stringFrom node).map .s

/-- Kind of a constructor-argument parse snippet, as chosen by
`_generate_deserialize_constructor_argument`: either an atomic value parsed
by the method `_parse_method_for_atomic_value` selects, or a list whose
items are parsed by that method. -/
inductive ArgKind (α : Type) : Type
  | atomic (parse : JsonNode → Except Err α)
  | listOf (parseItem : JsonNode → Except Err α)

/-- Meta information about one constructor argument of a concrete class as
the generator sees it: its external (JSON) property name, whether its type
annotation is not `OptionalOf` (required), and the parse snippet kind. -/
structure ArgMeta (α : Type) : Type where
  jsonName : String
  required : Bool
  kind : ArgKind α

/-- Value held by one argument slot after a successful parse of that
argument: an atomic value or a parsed list. -/
inductive SlotVal (α : Type) : Type
  | atom (a : α)
  | items (xs : List α)
deriving DecidableEq

/-- Meta information about a concrete class: its C-sharp name, the
constructor arguments in order, and whether the class participates in
polymorphism (`serialization.with_model_type`). -/
structure ClassMeta (α : Type) : Type where
  name : String
  args : List (ArgMeta α)
  withModelType : Bool

variable {α β : Type}

/-- Semantics of the generated `foreach` loop over a JSON array inside the
list branch of `_generate_deserialize_constructor_argument`: a null item is
itself a parse error; any per-item failure gets the item index segment and
then the enclosing field name segment prepended; the index counter is
incremented only after a successful item. -/
def parseListLoop (jsonName : String) (parseItem : JsonNode → Except Err α) :
    List (Option JsonNode) → Nat → Except Err (List α)
  | [], _ => .ok []
  | none :: _, index =>
    .error (((Err.mk "Expected a non-null item, but got a null" []).prependIdx
      index).prependName jsonName)
  | some item :: rest, index =>
    match parseItem item with
    | .error e => .error ((e.prependIdx index).prependName jsonName)
    | .ok v =>
      match parseListLoop jsonName parseItem rest (index + 1) with
      | .error e => .error e
      | .ok vs => .ok (v :: vs)

/-- Semantics of the case body emitted by
`_generate_deserialize_constructor_argument` for a known key whose value is
not null: atomic values are parsed by the selected method with the field
name segment prepended on failure; list values require a `JsonArray` and
run the item loop. -/
def deserializeArgValue (jsonName : String) (kind : ArgKind α)
    (node : JsonNode) : Except Err (SlotVal α) :=
  match kind with
  | .atomic parse =>
    match parse node with
    | .error e => .error (e.prependName jsonName)
    | .ok v => .ok (.atom v)
  | .listOf parseItem =>
    match node with
    | .arr itemNodes =>
      match parseListLoop jsonName parseItem itemNodes 0 with
      | .error e => .error e
      | .ok vs => .ok (.items vs)
    | other =>
      .error ((Err.mk ("Expected a JsonArray, but got " ++ other.getTypeName)
        []).prependName jsonName)

/-- Lookup of the switch case matching a key: the position and meta data of
the first constructor argument whose external name equals the key. -/
def findArg (args : List (ArgMeta α)) (key : String) :
    Option (Nat × ArgMeta α) :=
  match args with
  | [] => none
  | a :: rest =>
    if a.jsonName = key then some (0, a)
    else (findArg rest key).map (fun p => (p.1 + 1, p.2))

/-- Initial argument slots: one `null` slot per constructor argument, as
emitted by the argument-initialization region of
`_generate_from_method_for_class`. -/
def initSlots (args : List (ArgMeta α)) : List (Option (SlotVal α)) :=
  args.map (fun _ => none)

/-- Semantics of the generated `foreach (var keyValue in obj)` switch of
`_generate_from_method_for_class`: a known key with null value is skipped;
a known key with a value runs the argument parse snippet and stores the
slot; the key `modelType` is skipped when the class participates in
polymorphism; any other key is the hard error naming the key. -/
def scanLoop (meta : ClassMeta α) :
    List (String × Option JsonNode) → List (Option (SlotVal α)) →
    Except Err (List (Option (SlotVal α)))
  | [], slots => .ok slots
  | (key, val) :: rest, slots =>
    match findArg meta.args key with
    | some (i, a) =>
      match val with
      | none => scanLoop meta rest slots
      | some node =>
        match deserializeArgValue a.jsonName a.kind node with
        | .error e => .error e
        | .ok v => scanLoop meta rest (slots.set i (some v))
    | none =>
      if meta.withModelType = true ∧ key = "modelType" then
        scanLoop meta rest slots
      else .error ⟨"Unexpected property: " ++ key, []⟩

/-- Cause string of the generated required-property check for the given
external property name. -/
def requiredErrMsg (jsonName : String) : String :=
  "Required property \"" ++ jsonName ++ "\" is missing"

/-- Semantics of the required-check region of
`_generate_from_method_for_class`: the checks run in constructor-argument
order, each one returning immediately on the first required argument whose
slot is still null. -/
def requiredCheck : List (ArgMeta α) → List (Option (SlotVal α)) → Option Err
  | [], _ => none
  | _ :: _, [] => none
  | a :: args, s :: slots =>
    if a.required && s.isNone then some ⟨requiredErrMsg a.jsonName, []⟩
    else requiredCheck args slots

/-- Semantics of the whole generated class parser
(`_generate_from_method_for_class`): require a `JsonObject`, scan its keys
into argument slots, run the required checks and finally hand the slots to
the constructor.  The parse result is the final slot assignment in
constructor-argument order. -/
def classFrom (meta : ClassMeta α) (node : JsonNode) :
    Except Err (List (Option (SlotVal α))) :=
  match node with
  | .obj fields =>
    match scanLoop meta fields (initSlots meta.args) with
    | .error e => .error e
    | .ok slots =>
      match requiredCheck meta.args slots with
      | some e => .error e
      | none => .ok slots
  | other =>
    .error ⟨"Expected a JsonObject, but got " ++ other.getTypeName, []⟩

/-- Meta information about an interface: its C-sharp name and, per
implementer, the fixed JSON model-type string paired with the
implementer's own parser. -/
structure InterfaceMeta (β : Type) : Type where
  name : String
  implementers : List (String × (JsonNode → Except Err β))

/-- Lookup of the switch case of the generated interface dispatch matching
the parsed model type: the parser of the first implementer whose fixed
model-type string equals it. -/
def findImplementer (implementers : List (String × (JsonNode → Except Err β)))
    (modelType : String) : Option (JsonNode → Except Err β) :=
  match implementers with
  | [] => none
  | (mt, parse) :: rest =>
    if mt = modelType then some parse else findImplementer rest modelType

/-- Semantics of the generated interface dispatch parser
(`_generate_from_method_for_interface`): require a `JsonObject`; require a
present, non-null `modelType` entry; require it to be a `JsonValue`
convertible to a string; switch on the string over the implementers'
fixed model-type strings, delegating the original node to the matching
implementer parser; an unmatched string is the error naming the interface
and the string. -/
def interfaceFrom (meta : InterfaceMeta β) (node : JsonNode) : Except Err β :=
  match node with
  | .obj fields =>
    match lookupField fields "modelType" with
    | none => .error ⟨"Expected a model type, but none is present", []⟩
    | some mtNode =>
      match mtNode with
      | .value v =>
        match v.asString with
        | none =>
          .error ⟨"Expected a string, but the conversion failed from " ++
            v.toJsonString, []⟩
        | some modelType =>
          match findImplementer meta.implementers modelType with
          | some parse => parse node
          | none =>
            .error ⟨"Unexpected model type for " ++ meta.name ++ ": " ++
              modelType, []⟩
      | other =>
        .error ⟨"Expected JsonValue, but got " ++ other.getTypeName, []⟩
  | other =>
    .error ⟨"Expected Nodes.JsonObject, but got " ++ other.getTypeName, []⟩

/-- Runtime state of one class property at serialization time, matching
the shape of the code `_generate_transform_property` emits: a required
property always holds a value; an optional property either holds one or is
absent (a null field in the C-sharp instance). -/
inductive PropState (β : Type) : Type
  | required (value : β)
  | optionalPresent (value : β)
  | optionalAbsent

/-- Semantics of the snippet emitted by `_generate_transform_property` for
one property: a required property is written unconditionally; an optional
property is wrapped in a presence check, so an absent optional property
contributes no entry at all. -/
def transformProperty (ser : β → JsonNode) (jsonName : String)
    (st : PropState β) : List (String × Option JsonNode) :=
  match st with
  | .required v => [(jsonName, some (ser v))]
  | .optionalPresent v => [(jsonName, some (ser v))]
  | .optionalAbsent => []

/-- Entries written for all properties in schema order, as emitted by the
property loop of `_generate_transform_for_class`. -/
def transformProps (ser : β → JsonNode) :
    List (String × PropState β) → List (String × Option JsonNode)
  | [] => []
  | (n, st) :: rest => transformProperty ser n st ++ transformProps ser rest

/-- Semantics of the generated `Transform<Class>` method
(`_generate_transform_for_class`): the result object holds the property
entries in schema order followed by the `modelType` discriminator entry
when the class participates in polymorphism. -/
def transformClass (ser : β → JsonNode)
    (props : List (String × PropState β)) (withModelType : Bool)
    (modelType : String) : List (String × Option JsonNode) :=
  transformProps ser props ++
    (if withModelType then [("modelType", some (.value (.jstr modelType)))]
     else [])

/-- Primitive kinds of the intermediate representation
(`intermediate.PrimitiveType`). -/
inductive PrimitiveType : Type
  | bool | int | float | str | bytearray
deriving DecidableEq

/-- Routing decided by `_generate_serialize_primitive_value`: a direct
`Nodes.JsonValue.Create` call, the generated `Transformer.ToJsonValue`
helper, or a direct create of the Base64 string of the bytes. -/
inductive PrimitiveRouting : Type
  | directCreate
  | viaToJsonValue
  | directCreateBase64
deriving DecidableEq

/-- Embedding of `_generate_serialize_primitive_value`: booleans, floats
and strings are emitted by a direct `Nodes.JsonValue.Create`; 64-bit
integers are routed through the generated `Transformer.ToJsonValue`
helper; byte arrays are emitted directly as their Base64 string. -/
def serializePrimitiveRouting : PrimitiveType → PrimitiveRouting
  | .bool => .directCreate
  | .float => .directCreate
  | .str => .directCreate
  | .int => .viaToJsonValue
  | .bytearray => .directCreateBase64

/-- The unchecked `System.ArgumentException` thrown by the generated
`Transformer.ToJsonValue` helper.  An `Except.error` carrying this value
models the exception propagating; the generated serializer has no
result-carrying error channel. -/
structure ArgumentException : Type where
  message : String
deriving DecidableEq

/-- Semantics of the generated `Transformer.ToJsonValue(long that)` helper
from `_generate_transformer`.  The parameter `longOfDoubleOfLong` stands
for the C-sharp double round-trip `(long)((double)that)`; the helper
throws `System.ArgumentException` exactly when that round-trip does not
return the input, and otherwise creates the JSON value. -/
def toJsonValue (longOfDoubleOfLong : Int → Int) (that : Int) :
    Except ArgumentException JsonVal :=
  if longOfDoubleOfLong that ≠ that then
    .error ⟨"The number can not be losslessly represented in JSON: " ++
      toString that⟩
  else .ok (.jint that)

/-- Type annotations of the intermediate representation as used by the
jsonization generator: a primitive, a reference to a named type, a list,
or an optional. -/
inductive GenTypeAnnotation : Type
  | primitive (p : PrimitiveType)
  | our (name : String)
  | listOf (items : GenTypeAnnotation)
  | optionalOf (value : GenTypeAnnotation)
deriving DecidableEq

/-- Modelled from the spec: `intermediate.beneath_optional`, which is not
among the given sources, strips the optional marker from a type annotation
(spec section 3: only `OptionalOf(Atomic)` and `ListOf(Atomic)` occur, so
one level suffices). -/
def beneath_optional : GenTypeAnnotation → GenTypeAnnotation
  | .optionalOf v => v
  | t => t

/-- Modelled from the spec: `intermediate.type_annotations_equal`, which is
not among the given sources, compares two type annotations structurally. -/
def typeAnnotationsEqual (a b : GenTypeAnnotation) : Bool :=
  decide (a = b)

/-- Generation-time meta data of a concrete class as consumed by the
generator: name, implementation-specific flag, constructor arguments and
properties with their type annotations. -/
structure ClassGenMeta : Type where
  name : String
  isImplementationSpecific : Bool
  args : List (String × GenTypeAnnotation)
  props : List (String × GenTypeAnnotation)
deriving DecidableEq

/-- Named types of a symbol table as walked by the generation pass. -/
inductive OurType : Type
  | enumeration (name : String)
  | constrainedPrimitive (name : String)
  | abstractClass (name : String)
  | concreteClass (cls : ClassGenMeta)
deriving DecidableEq

/-- Lookup of `cls.properties_by_name`: the type annotation of the first
property with the given name. -/
def findProp (props : List (String × GenTypeAnnotation)) (name : String) :
    Option GenTypeAnnotation :=
  match props with
  | [] => none
  | (n, t) :: rest => if n = name then some t else findProp rest name

/-- Message of the type-mismatch generation error raised by
`_generate_from_method_for_class` (the dynamic type reprs of the source
message are elided). -/
def mismatchMsg (clsName argName : String) : String :=
  "Expected type annotation for property " ++ argName ++
    " and constructor argument " ++ argName ++ " of the class " ++ clsName ++
    " to have matching types"

/-- Generation-time errors of `_generate_from_method_for_class`: one
mismatch error per constructor argument whose type annotation matches the
corresponding property's neither directly nor beneath the optional marker.
The source asserts beforehand that property names and argument names
coincide as sets, so the property lookup is assumed to succeed. -/
def classGenErrors (clsName : String)
    (props : List (String × GenTypeAnnotation)) :
    List (String × GenTypeAnnotation) → List String
  | [] => []
  | (argName, argTy) :: rest =>
    (match findProp props argName with
     | none => []
     | some propTy =>
       if typeAnnotationsEqual argTy propTy ||
           typeAnnotationsEqual (beneath_optional argTy) propTy then []
       else [mismatchMsg clsName argName]) ++
      classGenErrors clsName props rest

/-- Embedding of `_generate_from_method_for_class` at generation time: the
method body (abbreviated to the class name) exactly when no mismatch error
occurred, otherwise the collected error list. -/
def generateFromMethodForClass (cls : ClassGenMeta) :
    Option String × Option (List String) :=
  let errs := classGenErrors cls.name cls.props cls.args
  if errs.isEmpty then (some cls.name, none) else (none, some errs)

/-- Embedding of `_generate_deserialize_constructor_argument` at
generation time: the snippet never fails, so the result is always the
snippet (abbreviated to a tag with the argument name) and no error. -/
def generateDeserializeConstructorArgument (argName : String)
    (ty : GenTypeAnnotation) : Option String × Option String :=
  match beneath_optional ty with
  | .listOf _ => (some ("parse_list_block_" ++ argName), none)
  | _ => (some ("parse_atomic_block_" ++ argName), none)

/-- Implementation key for the deserialization snippet of an
implementation-specific class. -/
def deserializeImplKey (name : String) : String :=
  "Jsonization/DeserializeImplementation/" ++ name ++ "_from.cs"

/-- Implementation key for the transformer snippet of an
implementation-specific class. -/
def transformerImplKey (name : String) : String :=
  "Jsonization/Transformer/transform_" ++ name ++ ".cs"

/-- Message of the missing-snippet generation error. -/
def missingSnippetMsg (name key : String) : String :=
  "The jsonization snippet is missing for the implementation-specific class " ++
    name ++ ": " ++ key

/-- Errors collected by the loop of `_generate_deserialize_impl` over the
whole symbol table: for an implementation-specific concrete class a
missing-snippet error when its deserialization key is not supplied, for a
generated concrete class the mismatch errors of its from-method; the loop
continues past every error. -/
def deserializeImplErrors (specImpls : List String) : List OurType → List String
  | [] => []
  | .concreteClass cls :: rest =>
    (if cls.isImplementationSpecific then
      (if specImpls.contains (deserializeImplKey cls.name) then []
       else [missingSnippetMsg cls.name (deserializeImplKey cls.name)])
     else classGenErrors cls.name cls.props cls.args) ++
      deserializeImplErrors specImpls rest
  | _ :: rest => deserializeImplErrors specImpls rest

/-- Embedding of `_generate_deserialize_impl`: the assembled block when no
error was collected, otherwise the full error list. -/
def generateDeserializeImpl (specImpls : List String) (types : List OurType) :
    Option String × Option (List String) :=
  let errs := deserializeImplErrors specImpls types
  if errs.isEmpty then (some "DeserializeImplementation", none)
  else (none, some errs)

/-- Errors collected by the loop of `_generate_transformer` over the whole
symbol table: a missing-snippet error per implementation-specific concrete
class whose transformer key is not supplied (`_generate_transform_for_class`
itself never fails); the loop continues past every error. -/
def transformerErrors (specImpls : List String) : List OurType → List String
  | [] => []
  | .concreteClass cls :: rest =>
    (if cls.isImplementationSpecific then
      (if specImpls.contains (transformerImplKey cls.name) then []
       else [missingSnippetMsg cls.name (transformerImplKey cls.name)])
     else []) ++ transformerErrors specImpls rest
  | _ :: rest => transformerErrors specImpls rest

/-- Embedding of `_generate_transformer`: the assembled block when no
error was collected, otherwise the full error list. -/
def generateTransformer (specImpls : List String) (types : List OurType) :
    Option String × Option (List String) :=
  let errs := transformerErrors specImpls types
  if errs.isEmpty then (some "Transformer", none) else (none, some errs)

/-- Embedding of the top-level `generate`: the errors of the
deserialization pass and of the transformer pass are concatenated; when
any exist the result is no code and the full list, otherwise the assembled
code and no error. -/
def generate (specImpls : List String) (types : List OurType) :
    Option String × Option (List String) :=
  let dres := generateDeserializeImpl specImpls types
  let tres := generateTransformer specImpls types
  let errors := (dres.2.getD []) ++ (tres.2.getD [])
  if errors.isEmpty then
    (some ((dres.1.getD "") ++ "\n" ++ (tres.1.getD "")), none)
  else (none, some errors)

/-- Escaping of one character as in the loop body of the Go
`string_literal`: the seven control characters, the double quote and the
backslash are replaced by their two-character escape sequences, every
other character is kept as itself. -/
def goEscapeChar (c : Char) : List Char :=
  if c = '\x07' then ['\\', 'a']
  else if c = '\x08' then ['\\', 'b']
  else if c = '\x0c' then ['\\', 'f']
  else if c = '\n' then ['\\', 'n']
  else if c = '\r' then ['\\', 'r']
  else if c = '\t' then ['\\', 't']
  else if c = '\x0b' then ['\\', 'v']
  else if c = '\"' then ['\\', '\"']
  else if c = '\\' then ['\\', '\\']
  else [c]

/-- Concatenation of the per-character escapes, as accumulated by the
`escaped` list of the Go `string_literal`. -/
def goEscapeList : List Char → List Char
  | [] => []
  | c :: rest => goEscapeChar c ++ goEscapeList rest

/-- Embedding of `golang/common.py` `string_literal`: the escaped
characters joined and wrapped in double quotes. -/
def string_literal (text : String) : String :=
  String.mk ('\"' :: goEscapeList text.data ++ ['\"'])

/-- Test of one character as in the loop body of the Go `needs_escaping`:
the same nine characters the escaping loop replaces. -/
def goCharNeedsEscaping (c : Char) : Bool :=
  if c = '\x07' then true
  else if c = '\x08' then true
  else if c = '\x0c' then true
  else if c = '\n' then true
  else if c = '\r' then true
  else if c = '\t' then true
  else if c = '\x0b' then true
  else if c = '\"' then true
  else if c = '\\' then true
  else false

/-- Embedding of `golang/common.py` `needs_escaping`: whether some
character of the text would be escaped. -/
def needs_escaping (text : String) : Bool :=
  text.data.any goCharNeedsEscaping

/-- Appending strings appends their character lists. -/
theorem strDataAppend (a b : String) : (a ++ b).data = a.data ++ b.data := by
  cases a
  cases b
  rfl

/-- A character the Go escaping loop leaves alone maps to itself. -/
theorem goEscapeChar_of_plain {c : Char} (h : goCharNeedsEscaping c = false) :
    goEscapeChar c = [c] := by
  unfold goCharNeedsEscaping at h
  unfold goEscapeChar
  split_ifs at h ⊢
  all_goals simp_all

/-- A character the Go escaping loop replaces maps to a two-character
escape sequence. -/
theorem goEscapeChar_length_of_escape {c : Char}
    (h : goCharNeedsEscaping c = true) : (goEscapeChar c).length = 2 := by
  unfold goCharNeedsEscaping at h
  unfold goEscapeChar
  split_ifs at h ⊢ <;> simp_all

/-- Every character contributes at least one character to the escaped
text. -/
theorem one_le_goEscapeChar_length (c : Char) : 1 ≤ (goEscapeChar c).length := by
  unfold goEscapeChar
  split_ifs
  all_goals simp

/-- When no character of the text needs escaping, the escaped text is the
text itself. -/
theorem goEscapeList_of_plain {l : List Char}
    (h : l.any goCharNeedsEscaping = false) : goEscapeList l = l := by
  induction l with
  | nil => rfl
  | cons c rest ih =>
    rw [List.any_cons, Bool.or_eq_false_iff] at h
    rw [goEscapeList, goEscapeChar_of_plain h.1, ih h.2]
    rfl

/-- The escaped text is never shorter than the original text. -/
theorem length_le_goEscapeList (l : List Char) :
    l.length ≤ (goEscapeList l).length := by
  induction l with
  | nil => simp [goEscapeList]
  | cons c rest ih =>
    rw [goEscapeList, List.length_append, List.length_cons]
    have := one_le_goEscapeChar_length c
    omega

/-- When some character of the text needs escaping, the escaped text is
strictly longer than the original text. -/
theorem length_lt_goEscapeList {l : List Char}
    (h : l.any goCharNeedsEscaping = true) :
    l.length < (goEscapeList l).length := by
  induction l with
  | nil => simp at h
  | cons c rest ih =>
    rw [List.any_cons, Bool.or_eq_true] at h
    rw [goEscapeList, List.length_append, List.length_cons]
    rcases h with h | h
    · have h2 := goEscapeChar_length_of_escape h
      have := length_le_goEscapeList rest
      omega
    · have := ih h
      have := one_le_goEscapeChar_length c
      omega

/-- C10: for every input string, the Go `string_literal` starts and ends
with a double quote, and `needs_escaping` returns false exactly when
`string_literal` is the text unchanged wrapped in double quotes, so
exactly the characters of the escaping chain (the seven control
characters, the double quote and the backslash) are escaped and no
others. -/
theorem string_literal_spec (text : String) :
    (string_literal text).data.head? = some '\"' ∧
    (string_literal text).data.getLast? = some '\"' ∧
    (needs_escaping text = false ↔
      string_literal text = "\"" ++ text ++ "\"") := by
  refine ⟨rfl, ?_, ?_⟩
  · show (('\"' :: goEscapeList text.data) ++ ['\"']).getLast? = some '\"'
    rw [List.getLast?_concat]
  · constructor
    · intro h
      have hesc : goEscapeList text.data = text.data :=
        goEscapeList_of_plain h
      obtain ⟨l⟩ := text
      show String.mk ('\"' :: goEscapeList l ++ ['\"']) = _
      rw [hesc]
      rfl
    · intro h
      by_contra hne
      rw [Bool.not_eq_false] at hne
      have hlt : text.data.length < (goEscapeList text.data).length :=
        length_lt_goEscapeList hne
      have hdata := congrArg (fun s => s.data.length) h
      simp only [string_literal, strDataAppend] at hdata
      simp only [List.length_cons, List.length_append] at hdata
      have h1 : ("\"" : String).data.length = 1 := rfl
      have h2 : text.length = text.data.length := rfl
      simp [h1] at hdata
      omega

/-- Witness for C10 at a concrete input without escapable characters. -/
theorem string_literal_spec_witness :
    (string_literal "ab").data.head? = some '\"' ∧
    string_literal "ab" = "\"" ++ "ab" ++ "\"" :=
  ⟨(string_literal_spec "ab").1, ((string_literal_spec "ab").2.2).mp rfl⟩



/-- Scanning a concatenation of key-value entries first scans the left
part and, only when that succeeds, continues with the right part on the
updated slots. -/
theorem scanLoop_append (meta : ClassMeta α)
    (xs ys : List (String × Option JsonNode))
    (slots : List (Option (SlotVal α))) :
    scanLoop meta (xs ++ ys) slots =
      (match scanLoop meta xs slots with
       | .error e => .error e
       | .ok s => scanLoop meta ys s) := by
  induction xs generalizing slots with
  | nil => simp [scanLoop]
  | cons kv rest ih =>
    obtain ⟨key, val⟩ := kv
    simp only [List.cons_append, scanLoop]
    split
    · next i a _ =>
      split
      · next => exact ih slots
      · next node _ =>
        split
        · next e _ => rfl
        · next v _ => exact ih (slots.set i (some v))
    · next =>
      split
      · next => exact ih slots
      · next => rfl

/-- Every key of an object whose scan succeeds is recognized: it matches
a constructor argument or it is the skipped discriminator key. -/
theorem scanLoop_ok_recognized (meta : ClassMeta α)
    (fields : List (String × Option JsonNode))
    (slots slots' : List (Option (SlotVal α)))
    (h : scanLoop meta fields slots = .ok slots') :
    ∀ kv ∈ fields, (findArg meta.args kv.1).isSome = true ∨
      (meta.withModelType = true ∧ kv.1 = "modelType") := by
  induction fields generalizing slots with
  | nil => intro kv hkv; cases hkv
  | cons e rest ih =>
    obtain ⟨key, val⟩ := e
    intro kv hkv
    rw [List.mem_cons] at hkv
    simp only [scanLoop] at h
    split at h
    · next i a heq =>
      rcases hkv with rfl | hkv
      · left; rw [heq]; rfl
      · split at h
        · next => exact ih slots h kv hkv
        · next node heq2 =>
          split at h
          · next e' heq3 => exact Except.noConfusion h
          · next v heq3 => exact ih (slots.set i (some v)) h kv hkv
    · next heq =>
      split at h
      · next hmt =>
        rcases hkv with rfl | hkv
        · right; exact hmt
        · exact ih slots h kv hkv
      · next hmt => exact Except.noConfusion h

/-- Scanning skips an entry whose key is recognized and whose value is
JSON null, leaving the slots untouched. -/
theorem scanLoop_skip_null (meta : ClassMeta α) (key : String)
    (hknown : (findArg meta.args key).isSome = true ∨
      (meta.withModelType = true ∧ key = "modelType"))
    (pre post : List (String × Option JsonNode)) :
    ∀ slots, scanLoop meta (pre ++ (key, none) :: post) slots =
      scanLoop meta (pre ++ post) slots := by
  induction pre with
  | nil =>
    intro slots
    simp only [List.nil_append, scanLoop]
    split
    · next i a heq => rfl
    · next heq =>
      rcases hknown with hk | hk
      · rw [heq] at hk; exact absurd hk (by simp)
      · rw [if_pos hk]
  | cons e rest ih =>
    intro slots
    obtain ⟨k, v⟩ := e
    simp only [List.cons_append, scanLoop]
    split
    · next i a _ =>
      split
      · next => exact ih slots
      · next node _ =>
        split
        · next => rfl
        · next w _ => exact ih (slots.set i (some w))
    · next =>
      split
      · next => exact ih slots
      · next => rfl

/-- Scanning with the discriminator key recognized skips a `modelType`
entry whatever its value is. -/
theorem scanLoop_skip_model_type (meta : ClassMeta α)
    (hmt : meta.withModelType = true)
    (hnoarg : findArg meta.args "modelType" = none)
    (pre post : List (String × Option JsonNode)) (w : Option JsonNode) :
    ∀ slots, scanLoop meta (pre ++ ("modelType", w) :: post) slots =
      scanLoop meta (pre ++ post) slots := by
  induction pre with
  | nil =>
    intro slots
    simp only [List.nil_append, scanLoop, hnoarg]
    rw [if_pos ⟨hmt, trivial⟩]
  | cons e rest ih =>
    intro slots
    obtain ⟨k, v⟩ := e
    simp only [List.cons_append, scanLoop]
    split
    · next i a _ =>
      split
      · next => exact ih slots
      · next node _ =>
        split
        · next => rfl
        · next u _ => exact ih (slots.set i (some u))
    · next =>
      split
      · next => exact ih slots
      · next => rfl

/-- The generated required checks return the error of the first required
argument whose slot is still absent. -/
theorem requiredCheck_first (args : List (ArgMeta α))
    (slots : List (Option (SlotVal α))) (i : Nat) (a : ArgMeta α)
    (ha : args[i]? = some a) (hreq : a.required = true)
    (hmiss : slots[i]? = some none)
    (hearlier : ∀ j, j < i → ∀ b sb, args[j]? = some b →
      slots[j]? = some sb → b.required = true → sb ≠ none) :
    requiredCheck args slots = some ⟨requiredErrMsg a.jsonName, []⟩ := by
  induction i generalizing args slots with
  | zero =>
    cases args with
    | nil => cases ha
    | cons a0 args' =>
      cases slots with
      | nil => cases hmiss
      | cons s0 slots' =>
        simp only [List.getElem?_cons_zero, Option.some.injEq] at ha hmiss
        subst ha
        subst hmiss
        simp [requiredCheck, hreq]
  | succ i ih =>
    cases args with
    | nil => cases ha
    | cons a0 args' =>
      cases slots with
      | nil => cases hmiss
      | cons s0 slots' =>
        have h0 := hearlier 0 (Nat.succ_pos i) a0 s0
          List.getElem?_cons_zero List.getElem?_cons_zero
        have hcond : (a0.required && s0.isNone) = false := by
          cases hr : a0.required with
          | false => rfl
          | true =>
            cases s0 with
            | none => exact absurd rfl (h0 hr)
            | some w => rfl
        rw [List.getElem?_cons_succ] at ha hmiss
        rw [requiredCheck, hcond]
        simp only [Bool.false_eq_true, if_false]
        exact ih args' slots' ha hmiss
          (fun j hj b sb hb hsb hr =>
            hearlier (j + 1) (Nat.succ_lt_succ hj) b sb
              (by rw [List.getElem?_cons_succ]; exact hb)
              (by rw [List.getElem?_cons_succ]; exact hsb) hr)

/-- Concrete class meta data with two required boolean properties,
mirroring a generated class with external names "a" and "b". -/
def twoRequiredMeta : ClassMeta PVal :=
  ⟨"Example",
   [⟨"a", true, .atomic boolFromP⟩, ⟨"b", true, .atomic boolFromP⟩],
   false⟩

/-- Concrete class meta data with a single required boolean property. -/
def oneRequiredMeta : ClassMeta PVal :=
  ⟨"Example", [⟨"a", true, .atomic boolFromP⟩], false⟩

/-- C1 counterexample: parsing the empty object for a class with the two
required properties "a" and "b" leaves both argument slots absent, yet
the generated parser returns exactly one error, the one naming "a" -- the
absent required slot "b" is never reported, because each generated
required check returns immediately.  This refutes the claim that every
still-absent required slot is reported as a distinct error. -/
theorem classFrom_two_missing_reports_only_first :
    classFrom twoRequiredMeta (.obj []) =
      .error ⟨requiredErrMsg "a", []⟩ ∧
    requiredErrMsg "a" ≠ requiredErrMsg "b" :=
  ⟨rfl, by decide⟩

/-- C1 (amended): when the key scan of a JSON object succeeds and some
required constructor-argument slot is still absent, the generated parser
fails with the "required property missing" error of the first such
argument in constructor order, whose cause names that argument's external
field name.  In particular, omitting any single non-optional property
from an otherwise-valid object yields the error naming exactly that
property. -/
theorem classFrom_reports_first_missing_required (meta : ClassMeta α)
    (fields : List (String × Option JsonNode))
    (slots : List (Option (SlotVal α))) (i : Nat) (a : ArgMeta α)
    (hscan : scanLoop meta fields (initSlots meta.args) = .ok slots)
    (ha : meta.args[i]? = some a) (hreq : a.required = true)
    (hmiss : slots[i]? = some none)
    (hearlier : ∀ j, j < i → ∀ b sb, meta.args[j]? = some b →
      slots[j]? = some sb → b.required = true → sb ≠ none) :
    classFrom meta (.obj fields) =
      .error ⟨requiredErrMsg a.jsonName, []⟩ := by
  simp only [classFrom, hscan]
  rw [requiredCheck_first meta.args slots i a ha hreq hmiss hearlier]

/-- Witness for the amended C1: the empty object omits the single
required property "a" and the reported error names exactly "a". -/
theorem classFrom_reports_first_missing_required_witness :
    classFrom oneRequiredMeta (.obj []) =
      .error ⟨requiredErrMsg "a", []⟩ :=
  classFrom_reports_first_missing_required oneRequiredMeta []
    (initSlots oneRequiredMeta.args) 0 ⟨"a", true, .atomic boolFromP⟩
    rfl rfl rfl rfl (fun j hj => absurd hj (Nat.not_lt_zero j))

/-- C5: a known key bound to JSON null parses exactly as if the key were
entirely omitted: the entry is skipped and the argument slot stays
absent, so both objects succeed identically when the property is optional
and fail with the same required-property error when it is required. -/
theorem classFrom_null_key_equiv_absent (meta : ClassMeta α) (key : String)
    (pre post : List (String × Option JsonNode))
    (hknown : (findArg meta.args key).isSome = true ∨
      (meta.withModelType = true ∧ key = "modelType")) :
    classFrom meta (.obj (pre ++ (key, none) :: post)) =
      classFrom meta (.obj (pre ++ post)) := by
  simp only [classFrom]
  rw [scanLoop_skip_null meta key hknown pre post (initSlots meta.args)]

/-- Concrete class meta data with a required property "x" and an optional
property "y", both 64-bit integers, as in the spec's Point example. -/
def pointMeta : ClassMeta PVal :=
  ⟨"Point",
   [⟨"x", true, .atomic longFromP⟩, ⟨"y", false, .atomic longFromP⟩],
   false⟩

/-- Witness for C5: binding the optional property "y" to null parses the
same as omitting "y". -/
theorem classFrom_null_key_equiv_absent_witness :
    classFrom pointMeta
      (.obj [("x", some (.value (.jint 3))), ("y", none)]) =
      classFrom pointMeta (.obj [("x", some (.value (.jint 3)))]) :=
  classFrom_null_key_equiv_absent pointMeta "y"
    [("x", some (.value (.jint 3)))] [] (Or.inl rfl)

/-- C3 (amended): parsing a class-typed object that contains an entry
whose key matches no constructor argument and is not the skipped
discriminator always fails; whenever the entries before the unknown key
scan successfully (in particular when all recognized keys are valid), the
error is exactly the one naming the unexpected key; and a `modelType`
entry is recognized and skipped, whatever its value, exactly when the
class participates in polymorphism. -/
theorem classFrom_unknown_key_rejection (meta : ClassMeta α) (key : String)
    (hunrec : findArg meta.args key = none)
    (hnotskip : ¬(meta.withModelType = true ∧ key = "modelType")) :
    (∀ fields w v, (key, w) ∈ fields →
      classFrom meta (.obj fields) ≠ .ok v) ∧
    (∀ pre post w slots,
      scanLoop meta pre (initSlots meta.args) = .ok slots →
      classFrom meta (.obj (pre ++ (key, w) :: post)) =
        .error ⟨"Unexpected property: " ++ key, []⟩) ∧
    (meta.withModelType = true → findArg meta.args "modelType" = none →
      ∀ pre post w,
        classFrom meta (.obj (pre ++ ("modelType", w) :: post)) =
          classFrom meta (.obj (pre ++ post))) := by
  refine ⟨?_, ?_, ?_⟩
  · intro fields w v hmem hok
    simp only [classFrom] at hok
    split at hok
    · next e heq => exact Except.noConfusion hok
    · next slots heq =>
      have hrec := scanLoop_ok_recognized meta fields _ slots heq (key, w) hmem
      rcases hrec with hc | hc
      · rw [hunrec] at hc
        exact absurd hc (by simp)
      · exact hnotskip hc
  · intro pre post w slots hscan
    simp only [classFrom]
    rw [scanLoop_append meta pre ((key, w) :: post) (initSlots meta.args),
      hscan]
    simp only [scanLoop, hunrec]
    rw [if_neg hnotskip]
  · intro hmt hnoarg pre post w
    simp only [classFrom]
    rw [scanLoop_skip_model_type meta hmt hnoarg pre post w
      (initSlots meta.args)]

/-- C3 counterexample: an object whose first entry is the recognized key
"a" with an invalid value and whose second key "zzz" is unrecognized
fails with the parse error of "a"; the reported cause does not name the
unexpected key "zzz", refuting the claim that such an object always
fails with an error naming the unexpected key regardless of whether the
recognized keys are valid. -/
theorem classFrom_unknown_key_error_can_omit_key :
    classFrom twoRequiredMeta
      (.obj [("a", some (.value (.jint 5))),
             ("zzz", some (.value (.jbool true)))]) =
      .error ⟨"Expected a boolean, but the conversion failed from 5",
        [.name "a"]⟩ ∧
    ("Expected a boolean, but the conversion failed from 5" ≠
      "Unexpected property: " ++ "zzz") :=
  ⟨rfl, by decide⟩

/-- Witness for the amended C3 at concrete inputs: an object with only
the unknown key "zzz" cannot parse successfully, and parsing it reports
exactly the unexpected-property error naming "zzz". -/
theorem classFrom_unknown_key_rejection_witness :
    (classFrom twoRequiredMeta
      (.obj [("zzz", some (.value (.jbool true)))]) ≠
      .ok [some (.atom (.b true)), some (.atom (.b true))]) ∧
    classFrom twoRequiredMeta (.obj [("zzz", none)]) =
      .error ⟨"Unexpected property: " ++ "zzz", []⟩ :=
  ⟨(classFrom_unknown_key_rejection twoRequiredMeta "zzz" rfl
      (by decide)).1 [("zzz", some (.value (.jbool true)))]
      (some (.value (.jbool true)))
      [some (.atom (.b true)), some (.atom (.b true))]
      (List.mem_singleton.mpr rfl),
   (classFrom_unknown_key_rejection twoRequiredMeta "zzz" rfl
      (by decide)).2.1 [] [] none (initSlots twoRequiredMeta.args) rfl⟩

/-- Failing at position `k` of the generated item loop, with every
earlier item non-null and successfully parsed, yields the error of item
`k` carrying the running index counter. -/
theorem parseListLoop_fail_at (f : String) (p : JsonNode → Except Err α)
    (k : Nat) :
    ∀ (items : List (Option JsonNode)) (start : Nat),
    (∀ j, j < k → ∃ n v, items[j]? = some (some n) ∧ p n = .ok v) →
    ((items[k]? = some none →
      parseListLoop f p items start =
        .error ⟨"Expected a non-null item, but got a null",
          [.name f, .idx (start + k)]⟩) ∧
     (∀ n e, items[k]? = some (some n) → p n = .error e →
      parseListLoop f p items start =
        .error ⟨e.cause, .name f :: .idx (start + k) :: e.path⟩)) := by
  induction k with
  | zero =>
    intro items start hok
    constructor
    · intro hk
      cases items with
      | nil => cases hk
      | cons x rest =>
        simp only [List.getElem?_cons_zero, Option.some.injEq] at hk
        subst hk
        simp [parseListLoop, Err.prependIdx, Err.prependName]
    · intro n e hk he
      cases items with
      | nil => cases hk
      | cons x rest =>
        simp only [List.getElem?_cons_zero, Option.some.injEq] at hk
        subst hk
        simp [parseListLoop, he, Err.prependIdx, Err.prependName]
  | succ k ih =>
    intro items start hok
    cases items with
    | nil =>
      constructor
      · intro hk; cases hk
      · intro n e hk he; cases hk
    | cons x rest =>
      obtain ⟨n0, v0, hx, hp0⟩ := hok 0 (Nat.succ_pos k)
      simp only [List.getElem?_cons_zero, Option.some.injEq] at hx
      subst hx
      have hok' : ∀ j, j < k → ∃ n v, rest[j]? = some (some n) ∧ p n = .ok v := by
        intro j hj
        have := hok (j + 1) (Nat.succ_lt_succ hj)
        simpa using this
      have harith : start + 1 + k = start + (k + 1) := by omega
      constructor
      · intro hk
        rw [List.getElem?_cons_succ] at hk
        have hrec := (ih rest (start + 1) hok').1 hk
        simp only [parseListLoop, hp0, hrec, harith]
      · intro n e hk he
        rw [List.getElem?_cons_succ] at hk
        have hrec := (ih rest (start + 1) hok').2 n e hk he
        simp only [parseListLoop, hp0, hrec, harith]

/-- C4: for a list-typed constructor argument the generated parser
rejects a null array element with a parse error, and on a per-element
failure at index `k` (all earlier elements parsing successfully) it
prepends first the index segment `k` and then the enclosing field's name
segment, so the path contributed by this frame is the field name followed
by index `k` followed by the element's own error path; for an element
error carrying no deeper path, the reported path is exactly the field
name and the single index `k`. -/
theorem listArg_index_attribution (f : String)
    (p : JsonNode → Except Err α) (items : List (Option JsonNode)) (k : Nat)
    (hok : ∀ j, j < k → ∃ n v, items[j]? = some (some n) ∧ p n = .ok v) :
    (items[k]? = some none →
      deserializeArgValue f (.listOf p) (.arr items) =
        .error ⟨"Expected a non-null item, but got a null",
          [.name f, .idx k]⟩) ∧
    (∀ n e, items[k]? = some (some n) → p n = .error e →
      deserializeArgValue f (.listOf p) (.arr items) =
        .error ⟨e.cause, .name f :: .idx k :: e.path⟩) := by
  have h := parseListLoop_fail_at f p k items 0 hok
  rw [Nat.zero_add] at h
  constructor
  · intro hk
    simp only [deserializeArgValue, h.1 hk]
  · intro n e hk he
    simp only [deserializeArgValue, h.2 n e hk he]

/-- Witness for C4: in the array with a valid first element and a null
element at index 1, the null element is rejected and the reported path is
exactly the field name "xs" followed by index 1. -/
theorem listArg_index_attribution_witness :
    deserializeArgValue "xs" (.listOf boolFromP)
      (.arr [some (.value (.jbool true)), none]) =
      .error ⟨"Expected a non-null item, but got a null",
        [.name "xs", .idx 1]⟩ :=
  (listArg_index_attribution "xs" boolFromP
    [some (.value (.jbool true)), none] 1
    (fun j hj => by
      have hj0 : j = 0 := Nat.lt_one_iff.mp hj
      subst hj0
      exact ⟨.value (.jbool true), .b true, rfl, rfl⟩)).1 rfl

/-- Strings differing at some character position are distinct. -/
theorem string_ne_of_char_ne {s t : String} (i : Nat)
    (h : s.data[i]? ≠ t.data[i]?) : s ≠ t :=
  fun he => h (congrArg (fun u => u.data[i]?) he)

/-- Reading a position inside the left part of an appended string. -/
theorem strDataAppendGet (p a : String) (i : Nat) (hlt : i < p.data.length) :
    (p ++ a).data[i]? = p.data[i]? := by
  rw [strDataAppend]
  exact List.getElem?_append_left hlt

/-- Appending to a non-empty string keeps it non-empty. -/
theorem strDataLenPos (p a : String) (h : 0 < p.data.length) :
    0 < (p ++ a).data.length := by
  rw [strDataAppend, List.length_append]
  omega

/-- The unknown-model-type cause always starts with the letter U. -/
theorem causeUnknown_head (n s : String) :
    ("Unexpected model type for " ++ n ++ ": " ++ s).data[0]? = some 'U' := by
  have h1 : (0 : Nat) < ("Unexpected model type for " : String).data.length := by
    decide
  have h2 := strDataLenPos "Unexpected model type for " n h1
  have h3 := strDataLenPos ("Unexpected model type for " ++ n) ": " h2
  rw [strDataAppendGet _ _ 0 h3, strDataAppendGet _ _ 0 h2,
    strDataAppendGet _ _ 0 h1]
  decide

/-- The non-object cause and the missing-discriminator cause differ. -/
theorem causeObj_ne_causeMissing (t : String) :
    "Expected Nodes.JsonObject, but got " ++ t ≠
      "Expected a model type, but none is present" := by
  apply string_ne_of_char_ne 9
  rw [strDataAppendGet "Expected Nodes.JsonObject, but got " t 9 (by decide)]
  decide

/-- The non-object cause and the non-value cause differ. -/
theorem causeObj_ne_causeVal (t u : String) :
    "Expected Nodes.JsonObject, but got " ++ t ≠
      "Expected JsonValue, but got " ++ u := by
  apply string_ne_of_char_ne 9
  rw [strDataAppendGet "Expected Nodes.JsonObject, but got " t 9 (by decide),
    strDataAppendGet "Expected JsonValue, but got " u 9 (by decide)]
  decide

/-- The non-object cause and the non-string cause differ. -/
theorem causeObj_ne_causeStr (t v : String) :
    "Expected Nodes.JsonObject, but got " ++ t ≠
      "Expected a string, but the conversion failed from " ++ v := by
  apply string_ne_of_char_ne 9
  rw [strDataAppendGet "Expected Nodes.JsonObject, but got " t 9 (by decide),
    strDataAppendGet "Expected a string, but the conversion failed from " v 9
      (by decide)]
  decide

/-- The non-object cause and the unknown-model-type cause differ. -/
theorem causeObj_ne_causeUnknown (t n s : String) :
    "Expected Nodes.JsonObject, but got " ++ t ≠
      "Unexpected model type for " ++ n ++ ": " ++ s := by
  apply string_ne_of_char_ne 0
  rw [strDataAppendGet "Expected Nodes.JsonObject, but got " t 0 (by decide),
    causeUnknown_head]
  decide

/-- The missing-discriminator cause and the non-value cause differ. -/
theorem causeMissing_ne_causeVal (u : String) :
    ("Expected a model type, but none is present" : String) ≠
      "Expected JsonValue, but got " ++ u := by
  apply string_ne_of_char_ne 9
  rw [strDataAppendGet "Expected JsonValue, but got " u 9 (by decide)]
  decide

/-- The missing-discriminator cause and the non-string cause differ. -/
theorem causeMissing_ne_causeStr (v : String) :
    ("Expected a model type, but none is present" : String) ≠
      "Expected a string, but the conversion failed from " ++ v := by
  apply string_ne_of_char_ne 11
  rw [strDataAppendGet "Expected a string, but the conversion failed from " v
    11 (by decide)]
  decide

/-- The missing-discriminator cause and the unknown-model-type cause
differ. -/
theorem causeMissing_ne_causeUnknown (n s : String) :
    ("Expected a model type, but none is present" : String) ≠
      "Unexpected model type for " ++ n ++ ": " ++ s := by
  apply string_ne_of_char_ne 0
  rw [causeUnknown_head]
  decide

/-- The non-value cause and the non-string cause differ. -/
theorem causeVal_ne_causeStr (u v : String) :
    "Expected JsonValue, but got " ++ u ≠
      "Expected a string, but the conversion failed from " ++ v := by
  apply string_ne_of_char_ne 9
  rw [strDataAppendGet "Expected JsonValue, but got " u 9 (by decide),
    strDataAppendGet "Expected a string, but the conversion failed from " v 9
      (by decide)]
  decide

/-- The non-value cause and the unknown-model-type cause differ. -/
theorem causeVal_ne_causeUnknown (u n s : String) :
    "Expected JsonValue, but got " ++ u ≠
      "Unexpected model type for " ++ n ++ ": " ++ s := by
  apply string_ne_of_char_ne 0
  rw [strDataAppendGet "Expected JsonValue, but got " u 0 (by decide),
    causeUnknown_head]
  decide

/-- The non-string cause and the unknown-model-type cause differ. -/
theorem causeStr_ne_causeUnknown (v n s : String) :
    "Expected a string, but the conversion failed from " ++ v ≠
      "Unexpected model type for " ++ n ++ ": " ++ s := by
  apply string_ne_of_char_ne 0
  rw [strDataAppendGet "Expected a string, but the conversion failed from " v
    0 (by decide), causeUnknown_head]
  decide

/-- C2: the generated interface dispatch requires a JSON object with a
present, string-valued `modelType` discriminator and switches on it: a
value equal to an implementer's fixed model-type string delegates the
node to that implementer's own parser, while a non-object node, a missing
(or null) discriminator, a non-string discriminator value (either not a
`JsonValue` or one whose string conversion fails) and an unknown
discriminator string each produce their own specifically-worded parse
error, pairwise distinct for all dynamic message parts, the last naming
the interface and the offending string. -/
theorem interfaceFrom_dispatch_spec (meta : InterfaceMeta β) :
    (∀ fields s q,
      lookupField fields "modelType" = some (.value (.jstr s)) →
      findImplementer meta.implementers s = some q →
      interfaceFrom meta (.obj fields) = q (.obj fields)) ∧
    (∀ node, (∀ fields, node ≠ .obj fields) →
      interfaceFrom meta node =
        .error ⟨"Expected Nodes.JsonObject, but got " ++ node.getTypeName,
          []⟩) ∧
    (∀ fields, lookupField fields "modelType" = none →
      interfaceFrom meta (.obj fields) =
        .error ⟨"Expected a model type, but none is present", []⟩) ∧
    (∀ fields mt, lookupField fields "modelType" = some mt →
      (∀ v, mt ≠ .value v) →
      interfaceFrom meta (.obj fields) =
        .error ⟨"Expected JsonValue, but got " ++ mt.getTypeName, []⟩) ∧
    (∀ fields v, lookupField fields "modelType" = some (.value v) →
      v.asString = none →
      interfaceFrom meta (.obj fields) =
        .error ⟨"Expected a string, but the conversion failed from " ++
          v.toJsonString, []⟩) ∧
    (∀ fields s, lookupField fields "modelType" = some (.value (.jstr s)) →
      findImplementer meta.implementers s = none →
      interfaceFrom meta (.obj fields) =
        .error ⟨"Unexpected model type for " ++ meta.name ++ ": " ++ s,
          []⟩) ∧
    (∀ t u v s, List.Pairwise Ne
      ["Expected Nodes.JsonObject, but got " ++ t,
       "Expected a model type, but none is present",
       "Expected JsonValue, but got " ++ u,
       "Expected a string, but the conversion failed from " ++ v,
       "Unexpected model type for " ++ meta.name ++ ": " ++ s]) := by
  refine ⟨?_, ?_, ?_, ?_, ?_, ?_, ?_⟩
  · intro fields s q hl hf
    simp only [interfaceFrom, hl, JsonVal.asString, hf]
  · intro node hno
    cases node with
    | value v => rfl
    | obj fields => exact absurd rfl (hno fields)
    | arr items => rfl
  · intro fields hl
    simp only [interfaceFrom, hl]
  · intro fields mt hl hnv
    cases mt with
    | value v => exact absurd rfl (hnv v)
    | obj fields2 => simp only [interfaceFrom, hl]
    | arr items2 => simp only [interfaceFrom, hl]
  · intro fields v hl hs
    simp only [interfaceFrom, hl, hs]
  · intro fields s hl hf
    simp only [interfaceFrom, hl, JsonVal.asString, hf]
  · intro t u v s
    refine List.Pairwise.cons ?_ (List.Pairwise.cons ?_
      (List.Pairwise.cons ?_ (List.Pairwise.cons ?_ (List.Pairwise.cons
        (fun x hx => absurd hx (List.not_mem_nil x)) List.Pairwise.nil))))
    · intro x hx
      simp only [List.mem_cons, List.not_mem_nil, or_false] at hx
      rcases hx with rfl | rfl | rfl | rfl
      · exact causeObj_ne_causeMissing t
      · exact causeObj_ne_causeVal t u
      · exact causeObj_ne_causeStr t v
      · exact causeObj_ne_causeUnknown t meta.name s
    · intro x hx
      simp only [List.mem_cons, List.not_mem_nil, or_false] at hx
      rcases hx with rfl | rfl | rfl
      · exact causeMissing_ne_causeVal u
      · exact causeMissing_ne_causeStr v
      · exact causeMissing_ne_causeUnknown meta.name s
    · intro x hx
      simp only [List.mem_cons, List.not_mem_nil, or_false] at hx
      rcases hx with rfl | rfl
      · exact causeVal_ne_causeStr u v
      · exact causeVal_ne_causeUnknown u meta.name s
    · intro x hx
      simp only [List.mem_cons, List.not_mem_nil, or_false] at hx
      rcases hx with rfl
      exact causeStr_ne_causeUnknown v meta.name s

/-- Concrete interface meta data with the single implementer whose fixed
model-type string is "Example". -/
def exampleInterfaceMeta : InterfaceMeta Bool :=
  ⟨"IExample", [("Example", fun _ => .ok true)]⟩

/-- Witness for C2 at concrete inputs: a matching discriminator
dispatches to the implementer parser, and an unmatched discriminator
yields the error naming the interface and the offending string. -/
theorem interfaceFrom_dispatch_spec_witness :
    interfaceFrom exampleInterfaceMeta
      (.obj [("modelType", some (.value (.jstr "Example")))]) = .ok true ∧
    interfaceFrom exampleInterfaceMeta
      (.obj [("modelType", some (.value (.jstr "Nope")))]) =
      .error ⟨"Unexpected model type for " ++ "IExample" ++ ": " ++ "Nope",
        []⟩ :=
  ⟨(interfaceFrom_dispatch_spec exampleInterfaceMeta).1
      [("modelType", some (.value (.jstr "Example")))] "Example"
      (fun _ => .ok true) rfl rfl,
   (interfaceFrom_dispatch_spec exampleInterfaceMeta).2.2.2.2.2.1
      [("modelType", some (.value (.jstr "Nope")))] "Nope" rfl rfl⟩

/-- An entry written for a property carries that property's external
name. -/
theorem transformProperty_key {ser : β → JsonNode} {n : String}
    {st : PropState β} {kv : String × Option JsonNode}
    (h : kv ∈ transformProperty ser n st) : kv.1 = n := by
  cases st with
  | required v =>
    simp only [transformProperty, List.mem_singleton] at h
    rw [h]
  | optionalPresent v =>
    simp only [transformProperty, List.mem_singleton] at h
    rw [h]
  | optionalAbsent => cases h

/-- Every entry of the property loop output comes from one property of
the list. -/
theorem mem_transformProps {ser : β → JsonNode}
    {props : List (String × PropState β)} {kv : String × Option JsonNode}
    (h : kv ∈ transformProps ser props) :
    ∃ p ∈ props, kv ∈ transformProperty ser p.1 p.2 := by
  induction props with
  | nil => cases h
  | cons q rest ih =>
    obtain ⟨n, st⟩ := q
    rw [transformProps, List.mem_append] at h
    rcases h with h | h
    · exact ⟨(n, st), List.mem_cons_self _ _, h⟩
    · obtain ⟨p, hp, hkv⟩ := ih h
      exact ⟨p, List.mem_cons_of_mem _ hp, hkv⟩

/-- C6: the generated class serializer wraps each optional property in a
presence check, so an absent optional property is omitted entirely from
the output object: no entry with that property's external name is
emitted, not even one with an explicit null value. -/
theorem transformClass_omits_absent_optional (ser : β → JsonNode)
    (pre post : List (String × PropState β)) (name : String)
    (withModelType : Bool) (modelType : String)
    (hothers : ∀ q ∈ pre ++ post, q.1 ≠ name)
    (hmt : name ≠ "modelType") :
    ∀ v : Option JsonNode,
      (name, v) ∉ transformClass ser
        (pre ++ (name, PropState.optionalAbsent) :: post) withModelType
        modelType := by
  intro v hmem
  rw [transformClass, List.mem_append] at hmem
  rcases hmem with hmem | hmem
  · obtain ⟨p, hp, hkv⟩ := mem_transformProps hmem
    have hkey : name = p.1 := transformProperty_key hkv
    rw [List.mem_append, List.mem_cons] at hp
    rcases hp with hp | hp | hp
    · exact hothers p (List.mem_append_left _ hp) hkey.symm
    · rw [hp] at hkv
      cases hkv
    · exact hothers p (List.mem_append_right _ hp) hkey.symm
  · cases withModelType with
    | true =>
      simp only [if_true, List.mem_singleton, Prod.mk.injEq] at hmem
      exact hmt hmem.1
    | false => cases hmem

/-- Witness for C6: serializing a Point whose optional property "y" is
absent yields an object without any "y" entry. -/
theorem transformClass_omits_absent_optional_witness :
    ("y", (none : Option JsonNode)) ∉ transformClass
      (fun n : Int => .value (.jint n))
      [("x", .required 3), ("y", .optionalAbsent)] false "Point" :=
  transformClass_omits_absent_optional (fun n : Int => .value (.jint n))
    [("x", .required 3)] [] "y" false "Point"
    (fun q hq => by
      simp only [List.append_nil, List.mem_singleton] at hq
      rw [hq]
      decide)
    (by decide) none

/-- C7: `_generate_serialize_primitive_value` routes exactly the 64-bit
integer kind through the generated `Transformer.ToJsonValue` helper, all
other primitive kinds being emitted by a direct create with no failure
path, and the helper throws its `System.ArgumentException` (an unchecked
contract violation, not a returned error) exactly when the double
round-trip changes the value, for every possible double conversion
behaviour. -/
theorem serialize_int_contract :
    (∀ p, serializePrimitiveRouting p = .viaToJsonValue ↔ p = .int) ∧
    (∀ f that, (∃ ex, toJsonValue f that = .error ex) ↔ f that ≠ that) ∧
    (∀ f that ex, toJsonValue f that = .error ex →
      ex.message =
        "The number can not be losslessly represented in JSON: " ++
          toString that) ∧
    (∀ f that, f that = that → toJsonValue f that = .ok (.jint that)) := by
  refine ⟨?_, ?_, ?_, ?_⟩
  · intro p
    cases p
    all_goals simp [serializePrimitiveRouting]
  · intro f that
    by_cases h : f that = that
    · simp [toJsonValue, h]
    · simp [toJsonValue, h]
  · intro f that ex h
    rw [toJsonValue] at h
    split_ifs at h with hc
    have hex := Except.error.inj h
    rw [← hex]
  · intro f that h
    simp [toJsonValue, h]

/-- Witness for C7: a conversion collapsing everything to zero is lossy
at one and throws, while the identity conversion is lossless at one and
produces the JSON value. -/
theorem serialize_int_contract_witness :
    (∃ ex, toJsonValue (fun _ => 0) 1 = .error ex) ∧
    toJsonValue (fun x => x) 1 = .ok (.jint 1) :=
  ⟨(serialize_int_contract.2.1 (fun _ => 0) 1).mpr (by decide),
   serialize_int_contract.2.2.2 (fun x => x) 1 rfl⟩

/-- The error component of the deserialization pass is exactly the
collected error list (empty list when none was collected). -/
theorem generateDeserializeImpl_errs (specImpls : List String)
    (types : List OurType) :
    (generateDeserializeImpl specImpls types).2.getD [] =
      deserializeImplErrors specImpls types := by
  simp only [generateDeserializeImpl]
  split_ifs with h
  · simp [List.isEmpty_iff.mp h]
  · rfl

/-- The error component of the transformer pass is exactly the collected
error list (empty list when none was collected). -/
theorem generateTransformer_errs (specImpls : List String)
    (types : List OurType) :
    (generateTransformer specImpls types).2.getD [] =
      transformerErrors specImpls types := by
  simp only [generateTransformer]
  split_ifs with h
  · simp [List.isEmpty_iff.mp h]
  · rfl

/-- Every implementation-specific concrete class of the symbol table
whose deserialization snippet is missing contributes its missing-snippet
error to the deserialization pass. -/
theorem mem_deserializeImplErrors (specImpls : List String)
    (cls : ClassGenMeta) (hspec : cls.isImplementationSpecific = true)
    (hmiss : specImpls.contains (deserializeImplKey cls.name) = false) :
    ∀ types : List OurType, OurType.concreteClass cls ∈ types →
      missingSnippetMsg cls.name (deserializeImplKey cls.name) ∈
        deserializeImplErrors specImpls types := by
  intro types
  induction types with
  | nil => intro h; cases h
  | cons t rest ih =>
    intro hmem
    rcases List.mem_cons.mp hmem with heq | hmem2
    · subst heq
      simp [deserializeImplErrors, hspec, hmiss]
      exact Or.inl (by simpa using hmiss)
    · cases t with
      | concreteClass c => exact List.mem_append_right _ (ih hmem2)
      | enumeration n => exact ih hmem2
      | constrainedPrimitive n => exact ih hmem2
      | abstractClass n => exact ih hmem2

/-- Every implementation-specific concrete class of the symbol table
whose transformer snippet is missing contributes its missing-snippet
error to the transformer pass. -/
theorem mem_transformerErrors (specImpls : List String)
    (cls : ClassGenMeta) (hspec : cls.isImplementationSpecific = true)
    (hmiss : specImpls.contains (transformerImplKey cls.name) = false) :
    ∀ types : List OurType, OurType.concreteClass cls ∈ types →
      missingSnippetMsg cls.name (transformerImplKey cls.name) ∈
        transformerErrors specImpls types := by
  intro types
  induction types with
  | nil => intro h; cases h
  | cons t rest ih =>
    intro hmem
    rcases List.mem_cons.mp hmem with heq | hmem2
    · subst heq
      simp [transformerErrors, hspec, hmiss]
      exact Or.inl (by simpa using hmiss)
    · cases t with
      | concreteClass c => exact List.mem_append_right _ (ih hmem2)
      | enumeration n => exact ih hmem2
      | constrainedPrimitive n => exact ih hmem2
      | abstractClass n => exact ih hmem2

/-- C8: the generation pass collects its errors exhaustively across all
types -- in particular one missing-snippet error per
implementation-specific class and per direction whose fragment key is
absent -- never stopping at the first error, and when any error exists
`generate` returns the full concatenated error list with no code in
place; when none exists it returns code. -/
theorem generate_collects_all_errors (specImpls : List String)
    (types : List OurType) :
    (deserializeImplErrors specImpls types ++
        transformerErrors specImpls types ≠ [] →
      generate specImpls types =
        (none, some (deserializeImplErrors specImpls types ++
          transformerErrors specImpls types))) ∧
    (∀ cls, OurType.concreteClass cls ∈ types →
      cls.isImplementationSpecific = true →
      specImpls.contains (deserializeImplKey cls.name) = false →
      missingSnippetMsg cls.name (deserializeImplKey cls.name) ∈
        deserializeImplErrors specImpls types) ∧
    (∀ cls, OurType.concreteClass cls ∈ types →
      cls.isImplementationSpecific = true →
      specImpls.contains (transformerImplKey cls.name) = false →
      missingSnippetMsg cls.name (transformerImplKey cls.name) ∈
        transformerErrors specImpls types) ∧
    (deserializeImplErrors specImpls types ++
        transformerErrors specImpls types = [] →
      ∃ code, generate specImpls types = (some code, none)) := by
  have hd := generateDeserializeImpl_errs specImpls types
  have ht := generateTransformer_errs specImpls types
  refine ⟨?_, ?_, ?_, ?_⟩
  · intro hne
    simp only [generate, hd, ht]
    split_ifs with h
    · exact absurd (List.isEmpty_iff.mp h) hne
    · rfl
  · intro cls hmem hspec hmiss
    exact mem_deserializeImplErrors specImpls cls hspec hmiss types hmem
  · intro cls hmem hspec hmiss
    exact mem_transformerErrors specImpls cls hspec hmiss types hmem
  · intro h
    refine ⟨(generateDeserializeImpl specImpls types).1.getD "" ++ "\n" ++
      (generateTransformer specImpls types).1.getD "", ?_⟩
    simp only [generate, hd, ht, h]
    rfl

/-- Generation meta data of an implementation-specific concrete class
named "Special" with no snippet supplied. -/
def specialClsMeta : ClassGenMeta :=
  ⟨"Special", true, [], []⟩

/-- Witness for C8: with one implementation-specific class and no
supplied snippets, both the parse-direction and the transform-direction
missing-snippet errors are collected and `generate` returns them all with
no code. -/
theorem generate_collects_all_errors_witness :
    generate [] [.concreteClass specialClsMeta] =
      (none,
       some (deserializeImplErrors [] [.concreteClass specialClsMeta] ++
         transformerErrors [] [.concreteClass specialClsMeta])) ∧
    missingSnippetMsg "Special" (deserializeImplKey "Special") ∈
      deserializeImplErrors [] [.concreteClass specialClsMeta] ∧
    missingSnippetMsg "Special" (transformerImplKey "Special") ∈
      transformerErrors [] [.concreteClass specialClsMeta] :=
  ⟨(generate_collects_all_errors [] [.concreteClass specialClsMeta]).1
      (by decide),
   (generate_collects_all_errors [] [.concreteClass specialClsMeta]).2.1
      specialClsMeta (List.mem_singleton.mpr rfl) rfl rfl,
   (generate_collects_all_errors [] [.concreteClass specialClsMeta]).2.2.1
      specialClsMeta (List.mem_singleton.mpr rfl) rfl rfl⟩

/-- C9: each generation routine that can fail returns a pair in which
exactly one of the generated result and the error component is present:
the result is there exactly when the error is not. -/
theorem generation_result_xor :
    (∀ argName ty,
      (generateDeserializeConstructorArgument argName ty).1.isSome =
        !(generateDeserializeConstructorArgument argName ty).2.isSome) ∧
    (∀ cls, (generateFromMethodForClass cls).1.isSome =
      !(generateFromMethodForClass cls).2.isSome) ∧
    (∀ specImpls types,
      (generateDeserializeImpl specImpls types).1.isSome =
        !(generateDeserializeImpl specImpls types).2.isSome) ∧
    (∀ specImpls types,
      (generateTransformer specImpls types).1.isSome =
        !(generateTransformer specImpls types).2.isSome) ∧
    (∀ specImpls types, (generate specImpls types).1.isSome =
      !(generate specImpls types).2.isSome) := by
  refine ⟨?_, ?_, ?_, ?_, ?_⟩
  · intro argName ty
    rw [generateDeserializeConstructorArgument]
    split
    · rfl
    · rfl
  · intro cls
    simp only [generateFromMethodForClass]
    split_ifs
    · rfl
    · rfl
  · intro specImpls types
    simp only [generateDeserializeImpl]
    split_ifs
    · rfl
    · rfl
  · intro specImpls types
    simp only [generateTransformer]
    split_ifs
    · rfl
    · rfl
  · intro specImpls types
    simp only [generate]
    split_ifs
    · rfl
    · rfl
